import Mathlib

/-!
Verification development for the `tmux-ssh` repository: a CLI that runs
remote commands inside persistent tmux sessions over SSH.

The repository ships `src/tmux_ssh/cli.py` (argument handling, target
parsing, config persistence, dispatch to the client) and
`src/tmux_ssh/__init__.py` (re-exports).  The engine module
`src/tmux_ssh/client.py` (`TmuxSSHClient` with `execute`, the streaming
poll loop, `cleanup`, and the `EXIT_*` constants) is referenced by both
files but is not part of the source tree; where a property is decided by
that module, the corresponding definition below is modelled from the
specification and marked `Modelled from the spec:` in its doc comment.
All other definitions are direct translations of `cli.py`.
-/

namespace TmuxSsh

/-! ## Engine data model (spec-modelled: `client.py` is absent) -/

/-- Modelled from the spec: the derived session state
`{Idle, Running, Completed, Error}` of §3; `client.py`, which computes it,
is not in the source tree. -/
inductive SessionState where
  | Idle
  | Running
  | Completed
  | Error
  deriving DecidableEq, Repr

/-- Modelled from the spec: one named tmux session on the remote host
(§3 Session).  `procId` is `some pid` exactly when a live foreground
process runs inside the session; `lastExit` is the exit status of the
last finished command, `none` when no command ever ran to completion. -/
structure RSession where
  name : String
  procId : Option Nat
  lastExit : Option Int
  command : String
  output : String
  deriving DecidableEq, Repr

/-- Modelled from the spec: the remote session store (§2), the set of
named sessions living on the remote host. -/
structure Remote where
  sessions : List RSession
  deriving DecidableEq, Repr

/-- Modelled from the spec: session state is derived, not stored (§3):
a live process means `Running`; otherwise the last exit status
classifies `Completed` / `Error`, and a session that never completed a
command is `Idle`. -/
def stateOf (s : RSession) : SessionState :=
  match s.procId with
  | some _ => .Running
  | none =>
    match s.lastExit with
    | some e => if e = 0 then .Completed else .Error
    | none => .Idle

/-- Modelled from the spec: `isRunning(name)` of the session registry
(§4.1), re-derived from the remote store on every query. -/
def isRunning (r : Remote) (name : String) : Bool :=
  r.sessions.any (fun s => s.name == name && s.procId.isSome)

/-- The primary session name; `cli.py` names it in the `--cleanup` help
text: "Clean up idle task_* sessions (keeps remote_task)". -/
def primaryName : String := "remote_task"

/-- Pool-class session names; `cli.py`'s `--cleanup` help text calls
them `task_*` sessions (Python `name.startswith("task_")`, written here
over the character list). -/
def isPoolName (n : String) : Bool := n.data.take 5 == "task_".data

/-- Modelled from the spec: the remote commands the engine can issue
through the transport; used to state "no remote mutation beyond the
conflict check" and "no orphaned kill". -/
inductive RemoteCmd where
  | query
  | dispatchCmd (session : String) (command : String)
  | killCmd (session : String)
  | capture (session : String)
  | destroy (session : String)
  deriving DecidableEq, Repr

/-! ## Exit statuses (spec-modelled: declared in the absent `client.py`) -/

/-- Modelled from the spec: process exit status for a completed remote
command; the constant lives in the absent `client.py`, the spec fixes
only distinctness, so the illustrative stable value 0 is used. -/
def EXIT_COMPLETED : Nat := 0

/-- Modelled from the spec: exit status for transport/auth failure or a
remote execution error; declared in the absent `client.py`. -/
def EXIT_ERROR : Nat := 1

/-- Modelled from the spec: exit status for a blocked conflict (target
session busy, no auto/force); declared in the absent `client.py`. -/
def EXIT_BLOCKED : Nat := 2

/-- Modelled from the spec: exit status when a timeout is reached while
the remote command persists; declared in the absent `client.py`. -/
def EXIT_STILL_RUNNING : Nat := 3

/-- Modelled from the spec: outcome statuses of the engine, §3
`ExecutionOutcome` plus the distinct `Interrupted` outcome of §5. -/
inductive OutcomeStatus where
  | Completed
  | Error
  | Blocked
  | StillRunning
  | Interrupted
  deriving DecidableEq, Repr, Fintype

/-- Modelled from the spec: the boundary mapping from outcome status to
process exit status (§3: "maps 1:1 to a process exit status"); the spec
leaves the cancellation exit value open, so `Interrupted` reuses the
still-running value, which the claim set does not constrain. -/
def exitCodeOf : OutcomeStatus → Nat
  | .Completed => EXIT_COMPLETED
  | .Error => EXIT_ERROR
  | .Blocked => EXIT_BLOCKED
  | .StillRunning => EXIT_STILL_RUNNING
  | .Interrupted => EXIT_STILL_RUNNING

/-! ## Output streamer (spec-modelled, §4.3 and §5) -/

/-- Modelled from the spec: what one poll iteration of the streaming
loop observes: a transport failure, a delivered interrupt signal, or a
successful capture of (possibly empty) new output together with whether
the remote process has exited. -/
inductive PollEvent where
  | fail
  | interrupt
  | ok (chunk : String) (exited : Bool)
  deriving DecidableEq, Repr

/-- Modelled from the spec: mutable state of the poll loop: output
captured so far, wall-clock seconds elapsed since dispatch, and seconds
since the last new output (the idle clock). -/
structure StreamState where
  captured : String
  elapsed : Nat
  idle : Nat
  deriving DecidableEq, Repr

/-- Modelled from the spec: result of the streaming loop: terminal
status, all captured output, and the trace of remote commands issued
while streaming. -/
structure StreamOutcome where
  status : OutcomeStatus
  captured : String
  cmds : List RemoteCmd
  deriving DecidableEq, Repr

/-- Modelled from the spec: `timeout=None`/unset means unlimited
absolute duration (§4.3 edge cases); a set timeout elapses once the
wall clock reaches it. -/
def timeoutElapsed : Option Nat → Nat → Bool
  | none, _ => false
  | some t, e => t ≤ e

/-- Modelled from the spec: §4.3 step (b): if output grew since the
prior poll, append the new suffix to the capture and reset the idle
clock; otherwise the state is unchanged. -/
def afterOutput (st : StreamState) (chunk : String) : StreamState :=
  if chunk = "" then st else ⟨st.captured ++ chunk, st.elapsed, 0⟩

/-- Modelled from the spec: §4.3 step (f): sleeping one poll interval
advances both the wall clock and the idle clock. -/
def tick (st : StreamState) (pollInterval : Nat) : StreamState :=
  ⟨st.captured, st.elapsed + pollInterval, st.idle + pollInterval⟩

/-- Modelled from the spec: the single-threaded polling loop of §4.3 as
a function of the schedule of poll observations.  Each iteration
captures output (one remote `capture` round trip), emits growth and
resets the idle clock, returns `Completed` on process exit, returns
`StillRunning` on idle timeout and then on absolute timeout, else
sleeps one poll interval and repeats.  A transport failure returns
`Error` with everything captured so far; a delivered interrupt returns
`Interrupted` and issues nothing further (§5).  An exhausted schedule
is observation cut-off and is reported as `StillRunning`. -/
def streamLoop (sessionName : String) (timeout : Option Nat)
    (idleTimeout pollInterval : Nat) :
    List PollEvent → StreamState → StreamOutcome
  | [], st => ⟨.StillRunning, st.captured, []⟩
  | ev :: rest, st =>
    match ev with
    | .interrupt => ⟨.Interrupted, st.captured, []⟩
    | .fail => ⟨.Error, st.captured, [.capture sessionName]⟩
    | .ok chunk exited =>
      if exited then
        ⟨.Completed, (afterOutput st chunk).captured, [.capture sessionName]⟩
      else if idleTimeout ≤ (afterOutput st chunk).idle then
        ⟨.StillRunning, (afterOutput st chunk).captured, [.capture sessionName]⟩
      else if timeoutElapsed timeout (afterOutput st chunk).elapsed then
        ⟨.StillRunning, (afterOutput st chunk).captured, [.capture sessionName]⟩
      else
        ⟨(streamLoop sessionName timeout idleTimeout pollInterval rest
            (tick (afterOutput st chunk) pollInterval)).status,
          (streamLoop sessionName timeout idleTimeout pollInterval rest
            (tick (afterOutput st chunk) pollInterval)).captured,
          .capture sessionName :: (streamLoop sessionName timeout idleTimeout pollInterval rest
            (tick (afterOutput st chunk) pollInterval)).cmds⟩

/-- Output chunks a schedule contributes before its first terminal
observation (failure, interrupt or exit); used to state that a
mid-stream failure never discards output already observed. -/
def chunksBefore : List PollEvent → String
  | [] => ""
  | .fail :: _ => ""
  | .interrupt :: _ => ""
  | .ok chunk exited :: rest => if exited then chunk else chunk ++ chunksBefore rest

/-! ## Execution controller (spec-modelled, §4.2) -/

/-- Modelled from the spec: a fresh pool-class session name (§4.2 step 1
"allocates a fresh unique pool name"); uniqueness is by suffix. -/
def freshPoolName (r : Remote) : String :=
  "task_" ++ toString r.sessions.length

/-- Modelled from the spec: dispatch a command into the named session,
creating the session if absent (§4.2 step 3, first bullet); the new
process is live in that session afterwards. -/
def dispatch (r : Remote) (name cmd : String) (pid : Nat) : Remote :=
  if r.sessions.any (fun s => s.name == name) then
    ⟨r.sessions.map (fun s =>
      if s.name == name then ⟨s.name, some pid, s.lastExit, cmd, s.output⟩ else s)⟩
  else
    ⟨r.sessions ++ [⟨name, some pid, none, cmd, ""⟩]⟩

/-- Modelled from the spec: terminate the live process in the named
session (§4.2 force branch), leaving the session itself in place. -/
def killProcessIn (r : Remote) (name : String) : Remote :=
  ⟨r.sessions.map (fun s =>
    if s.name == name then ⟨s.name, none, s.lastExit, s.command, s.output⟩ else s)⟩

/-- Modelled from the spec: result of `execute`: the outcome handed to
the caller, the remote store afterwards, the trace of remote commands
issued, and the session name actually used (`none` when blocked). -/
structure ExecResult where
  status : OutcomeStatus
  captured : String
  remote : Remote
  cmds : List RemoteCmd
  usedSession : Option String
  deriving Repr

/-- Modelled from the spec: `execute` of §4.2 (the controller lives in
the absent `client.py`).  It queries `isRunning` (the conflict check,
one `query` round trip), then applies the priority chain: not running →
dispatch and stream; else `force` → kill then dispatch and stream; else
`auto` → dispatch into a fresh pool session and stream; else return
`Blocked` immediately with no remote mutation beyond the conflict
check.  `events` is the schedule the streaming phase observes and `pid`
the process id the dispatch creates. -/
def execute (r : Remote) (target cmd : String) (force auto : Bool)
    (timeout : Option Nat) (idleTimeout pollInterval : Nat)
    (events : List PollEvent) (pid : Nat) : ExecResult :=
  if ¬ isRunning r target then
    let r' := dispatch r target cmd pid
    let out := streamLoop target timeout idleTimeout pollInterval events ⟨"", 0, 0⟩
    ⟨out.status, out.captured, r', .query :: .dispatchCmd target cmd :: out.cmds,
      some target⟩
  else if force then
    let r' := dispatch (killProcessIn r target) target cmd pid
    let out := streamLoop target timeout idleTimeout pollInterval events ⟨"", 0, 0⟩
    ⟨out.status, out.captured, r',
      .query :: .killCmd target :: .dispatchCmd target cmd :: out.cmds, some target⟩
  else if auto then
    let n := freshPoolName r
    let r' := dispatch r n cmd pid
    let out := streamLoop n timeout idleTimeout pollInterval events ⟨"", 0, 0⟩
    ⟨out.status, out.captured, r', .query :: .dispatchCmd n cmd :: out.cmds, some n⟩
  else
    ⟨.Blocked, "", r, [.query], none⟩

/-! ## Lifecycle manager: cleanup (spec-modelled, §4.4) -/

/-- Modelled from the spec: whether `cleanup()` reclaims this session:
only pool-class sessions whose derived state is `Idle` or `Completed`
(§4.4); the implementation lives in the absent `client.py`. -/
def cleanupVictim (s : RSession) : Bool :=
  isPoolName s.name && (stateOf s == .Idle || stateOf s == .Completed)

/-- Modelled from the spec: `cleanup()` of §4.4: destroy every
reclaimable pool session, returning the surviving store and the names
destroyed. -/
def cleanup (r : Remote) : Remote × List String :=
  (⟨r.sessions.filter (fun s => ¬ cleanupVictim s)⟩,
    (r.sessions.filter cleanupVictim).map RSession.name)

/-! ## CLI embedding: `src/tmux_ssh/cli.py` -/

/-- Python `arg.split(c, 1)` on character lists: split at the first
occurrence of `c`, `none` when `c` does not occur. -/
def splitFirst (c : Char) : List Char → Option (List Char × List Char)
  | [] => none
  | x :: xs =>
    if x = c then some ([], xs)
    else
      match splitFirst c xs with
      | some (a, b) => some (x :: a, b)
      | none => none

/-- Python `s.rsplit(c, 1)` on character lists: split at the last
occurrence of `c`, `none` when `c` does not occur. -/
def splitLast (c : Char) (l : List Char) : Option (List Char × List Char) :=
  match splitFirst c l.reverse with
  | some (a, b) => some (b.reverse, a.reverse)
  | none => none

/-- Python `s.isdigit()` restricted to ASCII: nonempty and all decimal
digits (the empty string is not a digit string). -/
def pyIsdigit (l : List Char) : Bool := !l.isEmpty && l.all Char.isDigit

/-- Python `int(s)` on a decimal digit string. -/
def digitsToNat (l : List Char) : Nat :=
  l.foldl (fun n c => 10 * n + (c.toNat - 48)) 0

/-- `cli.py` lines 76-81: strip `user@` off the connection argument at
the first `'@'`; yields the optional user part and the host part. -/
def userHostSplit (arg : String) : Option (List Char) × List Char :=
  match splitFirst '@' arg.data with
  | some (u, rest) => (some u, rest)
  | none => (none, arg.data)

/-- The host part of a connection argument (everything after the first
`'@'`, or the whole argument). -/
def hostPartOf (arg : String) : List Char := (userHostSplit arg).2

/-- The user part of a connection argument, when an `'@'` occurs. -/
def userPartOf (arg : String) : Option (List Char) := (userHostSplit arg).1

/-- `cli.py` line 93: `user if user else None` — an empty user segment
becomes `None`. -/
def charsOpt : Option (List Char) → Option String
  | some [] => none
  | some l => some (String.mk l)
  | none => none

/-- `cli.py` line 93: `host if host else None` — an empty host segment
becomes `None`. -/
def hostOpt (l : List Char) : Option String :=
  if l = [] then none else some (String.mk l)

/-- `cli.py` lines 57-93 `parse_connection_target`: parse
`[user@]host[:port]`; a port suffix must be all digits and lie in
`1..65535`, otherwise the Python code raises `ValueError` (modelled as
`Except.error`). -/
def parse_connection_target (arg : String) :
    Except String (Option String × Option String × Option Nat) :=
  match splitLast ':' (hostPartOf arg) with
  | some (host, portStr) =>
    if pyIsdigit portStr then
      if digitsToNat portStr < 1 ∨ 65535 < digitsToNat portStr then
        .error "Port out of range"
      else
        .ok (charsOpt (userPartOf arg), hostOpt host, some (digitsToNat portStr))
    else .error "Invalid port"
  | none => .ok (charsOpt (userPartOf arg), hostOpt (hostPartOf arg), none)

/-- Whether an `Except` value is a success. -/
def exceptOk : Except ε α → Bool
  | .ok _ => true
  | .error _ => false

/-- Python `sub in s` for a single-character `sub`. -/
def strHas (s : String) (c : Char) : Bool := s.data.contains c

/-- Python `s.startswith(t)`, written over the character lists. -/
def strStarts (s t : String) : Bool := s.data.take t.data.length == t.data

/-- `cli.py` lines 209-214: the first positional argument is treated as
a connection target iff it contains `'@'`, or it does not start with
`'-'` and contains no `'/'`, no space, and a `'.'`. -/
def looksLikeTarget (s : String) : Bool :=
  strHas s '@' ||
    (!strStarts s "-" && !strHas s '/' && !strHas s ' ' && strHas s '.')

/-- `cli.py` lines 205-226: extract the optional connection target from
the positionals.  A target-looking first argument is parsed (a
`ValueError` aborts the invocation, modelled as `error`); otherwise all
positionals are the command. -/
def extractTarget (positionals : List String) :
    Except String (Option String × Option String × Option Nat × List String) :=
  match positionals with
  | [] => .ok (none, none, none, [])
  | first :: rest =>
    if looksLikeTarget first then
      match parse_connection_target first with
      | .ok (u, h, prt) => .ok (u, h, prt, rest)
      | .error e => .error e
    else .ok (none, none, none, first :: rest)

/-- A JSON scalar as stored in `~/.tmux_ssh_config`; the `isinstance`
checks in `cli.py` distinguish these shapes. -/
inductive JVal where
  | str (s : String)
  | bool (b : Bool)
  | int (n : Int)
  deriving DecidableEq, Repr

/-- The saved configuration as `cli.py` reads it: one optional JSON
value per key it ever queries. -/
structure SavedConfig where
  host : Option JVal := none
  user : Option JVal := none
  port : Option JVal := none
  auto_new_session : Option JVal := none
  last_server : Option JVal := none
  deriving DecidableEq, Repr

/-- Python truthiness of an optional string: `None` and `""` are
falsy. -/
def truthyStr : Option String → Option String
  | some s => if s = "" then none else some s
  | none => none

/-- Python truthiness of an optional int: `None` and `0` are falsy. -/
def truthyInt : Option Int → Option Int
  | some n => if n = 0 then none else some n
  | none => none

/-- `saved_host if isinstance(saved_host, str) else None`. -/
def savedStr : Option JVal → Option String
  | some (.str s) => some s
  | _ => none

/-- `cli.py` lines 250-261 / 263-274: chain `a or b or c` over optional
strings; `none` means every link was falsy and the CLI falls through to
the interactive prompt. -/
def firstTruthy (a b c : Option String) : Option String :=
  match truthyStr a with
  | some s => some s
  | none =>
    match truthyStr b with
    | some s => some s
    | none => truthyStr c

/-- `cli.py` lines 250-261: resolved hostname — positional target over
`-H` flag over saved config; `none` when the code would prompt. -/
def resolveHost (target flag : Option String) (saved : Option JVal) : Option String :=
  firstTruthy target flag (savedStr saved)

/-- `cli.py` lines 263-274: resolved username — positional target over
`-U` flag over saved config; `none` when the code would prompt. -/
def resolveUser (target flag : Option String) (saved : Option JVal) : Option String :=
  firstTruthy target flag (savedStr saved)

/-- `saved.get("port", 22)` filtered by `isinstance(saved_port, int)`:
a non-int or absent saved port falls back to 22. -/
def savedPortVal (saved : Option JVal) : Int :=
  match saved.getD (.int 22) with
  | .int n => n
  | _ => 22

/-- `cli.py` lines 276-282: resolved port — positional target over `-p`
flag over saved config, defaulting to 22; Python `or` short-circuits on
truthiness, so a zero link falls through. -/
def resolvePort (target flag : Option Int) (saved : Option JVal) : Int :=
  match truthyInt target with
  | some n => n
  | none =>
    match truthyInt flag with
    | some n => n
    | none => savedPortVal saved

/-- `cli.py` lines 284-289: resolved auto flag — explicit
`--auto`/`--no-auto` wins; else `saved.get("auto_new_session", True)`
when it is a bool; else `True`. -/
def resolveAuto (cliAuto : Option Bool) (saved : Option JVal) : Bool :=
  match cliAuto with
  | some b => b
  | none =>
    match saved.getD (.bool true) with
    | .bool b => b
    | _ => true

/-- The JSON object `save_config` (`cli.py` lines 34-54) writes to
`~/.tmux_ssh_config`. -/
structure ConfigFile where
  host : String
  user : String
  port : Int
  auto_new_session : Bool
  last_server : Option String
  deriving DecidableEq, Repr

/-- `cli.py` lines 34-54 `save_config`: the `last_server` key is only
written when the value is truthy (`if last_server:`). -/
def save_config (host user : String) (last_server : Option String)
    (auto_new_session : Bool) (port : Int) : ConfigFile :=
  { host := host, user := user, port := port,
    auto_new_session := auto_new_session,
    last_server :=
      match last_server with
      | some s => if s = "" then none else some s
      | none => none }

/-! ### The argument parser of `main` (`cli.py` lines 100-196) -/

/-- The attribute record `argparse` produces for `main`'s parser, with
the declared defaults: `timeout` defaults to `None` (unlimited),
`idle_timeout` to 3600, `auto` to `None` (no explicit choice). -/
structure ParsedArgs where
  host : Option String := none
  user : Option String := none
  port : Option Int := none
  clear : Bool := false
  timeout : Option Int := none
  idle_timeout : Int := 3600
  new : Bool := false
  force : Bool := false
  attach : Option String := none
  list : Bool := false
  cleanup : Bool := false
  kill : Option String := none
  yes : Bool := false
  auto : Option Bool := none
  positional : List String := []
  deriving DecidableEq, Repr

/-- A token `argparse` would read as an option rather than a value: it
starts with `'-'` and is not the bare `"-"`. -/
def isOptionLike (t : String) : Bool := strStarts t "-" && !(t == "-")

/-- Options of `main`'s parser that wait for a value token. -/
inductive Pending where
  | host
  | user
  | port
  | timeout
  | idle
  | attach
  | kill
  deriving DecidableEq, Repr

/-- Python `int(v)` as `argparse` applies it for `type=int` options:
optional sign followed by digits. -/
def pyToInt (s : String) : Option Int :=
  match s.data with
  | '-' :: ds =>
    if pyIsdigit ds then some (-(digitsToNat ds : Int)) else none
  | ds => if pyIsdigit ds then some ((digitsToNat ds : Int)) else none

/-- Store a value token into the field its option declared. -/
def applyValue (p : ParsedArgs) (f : Pending) (v : String) : Option ParsedArgs :=
  match f with
  | .host => some { p with host := some v }
  | .user => some { p with user := some v }
  | .port =>
    match pyToInt v with
    | some k => some { p with port := some k }
    | none => none
  | .timeout =>
    match pyToInt v with
    | some k => some { p with timeout := some k }
    | none => none
  | .idle =>
    match pyToInt v with
    | some k => some { p with idle_timeout := k }
    | none => none
  | .attach => some { p with attach := some v }
  | .kill => some { p with kill := some v }

/-- Options declared with `nargs="?"`: their value token is optional. -/
def optionalValued : Pending → Bool
  | .attach => true
  | .kill => true
  | _ => false

/-- Resolve an `nargs="?"` option that got no value token to its
`const` (the empty string, both for `-a` and `-k`). -/
def resolveOptional (p : ParsedArgs) (f : Pending) : ParsedArgs :=
  match f with
  | .attach => { p with attach := some "" }
  | .kill => { p with kill := some "" }
  | _ => p

/-- Dispatch one option or positional token, mirroring the
`add_argument` declarations of `cli.py` lines 108-194: store-true
flags, `--auto`/`--no-auto` on the shared `auto` destination, valued
options, `nargs="?"` options, and the `nargs="*"` positional; an
unknown option is an argparse error. -/
def flagToken (p : ParsedArgs) (t : String) : Option (ParsedArgs × Option Pending) :=
  if t = "-C" ∨ t = "--clear" then some ({ p with clear := true }, none)
  else if t = "-n" ∨ t = "--new" then some ({ p with new := true }, none)
  else if t = "-f" ∨ t = "--force" then some ({ p with force := true }, none)
  else if t = "-l" ∨ t = "--list" then some ({ p with list := true }, none)
  else if t = "--cleanup" then some ({ p with cleanup := true }, none)
  else if t = "-y" ∨ t = "--yes" then some ({ p with yes := true }, none)
  else if t = "--auto" then some ({ p with auto := some true }, none)
  else if t = "--no-auto" then some ({ p with auto := some false }, none)
  else if t = "-H" ∨ t = "--host" then some (p, some .host)
  else if t = "-U" ∨ t = "--user" then some (p, some .user)
  else if t = "-p" ∨ t = "--port" then some (p, some .port)
  else if t = "-t" ∨ t = "--timeout" then some (p, some .timeout)
  else if t = "-i" ∨ t = "--idle-timeout" then some (p, some .idle)
  else if t = "-a" ∨ t = "--attach" then some (p, some .attach)
  else if t = "-k" ∨ t = "--kill" then some (p, some .kill)
  else if isOptionLike t then none
  else some ({ p with positional := p.positional ++ [t] }, none)

/-- Parser state while scanning the token list. -/
structure ParseSt where
  opts : ParsedArgs
  pending : Option Pending
  err : Bool
  deriving DecidableEq, Repr

/-- Consume one token: a pending valued option takes it as its value
(an option-like token instead closes an `nargs="?"` option with its
const and is re-dispatched, and is an error for a required-value
option); otherwise the token is dispatched as option or positional. -/
def parseStep (st : ParseSt) (t : String) : ParseSt :=
  if st.err then st
  else
    match st.pending with
    | some f =>
      if isOptionLike t then
        if optionalValued f then
          match flagToken (resolveOptional st.opts f) t with
          | some (p2, pend2) => ⟨p2, pend2, false⟩
          | none => ⟨st.opts, none, true⟩
        else ⟨st.opts, none, true⟩
      else
        match applyValue st.opts f t with
        | some p2 => ⟨p2, none, false⟩
        | none => ⟨st.opts, none, true⟩
    | none =>
      match flagToken st.opts t with
      | some (p2, pend2) => ⟨p2, pend2, false⟩
      | none => ⟨st.opts, none, true⟩

/-- Close the scan: a still-pending `nargs="?"` option gets its const;
a required-value option left dangling is an argparse error. -/
def parseFinish (st : ParseSt) : Option ParsedArgs :=
  if st.err then none
  else
    match st.pending with
    | some f =>
      if optionalValued f then some (resolveOptional st.opts f) else none
    | none => some st.opts

/-- The whole argument parse of `main`: fold the tokens through
`parseStep` from the declared defaults. -/
def parseTokens (args : List String) : Option ParsedArgs :=
  parseFinish (args.foldl parseStep ⟨{}, none, false⟩)

/-! ### Dispatch and persistence (`cli.py` lines 297-350) -/

/-- The keyword arguments `main` passes to `client.execute` at
`cli.py` lines 340-347. -/
structure ExecuteCall where
  command : String
  timeout : Option Int
  idle_timeout : Int
  new_session : Bool
  force : Bool
  auto : Bool
  deriving DecidableEq, Repr

/-- `cli.py` lines 340-347: `execute` receives the parsed `timeout`,
`idle_timeout`, `new` and `force` verbatim, plus the resolved `auto`. -/
def executeCallOf (p : ParsedArgs) (user_cmd : String) (auto : Bool) : ExecuteCall :=
  { command := user_cmd, timeout := p.timeout, idle_timeout := p.idle_timeout,
    new_session := p.new, force := p.force, auto := auto }

/-- Which client operation `main` dispatches to, in the order of the
branches at `cli.py` lines 303-340. -/
inductive CliAction where
  | clearCreds
  | listSessions
  | cleanupSessions
  | attachSession (session : Option String)
  | killSession (session : Option String) (force : Bool)
  | executeCommand
  deriving DecidableEq, Repr

/-- The branch order of `main`: clear, list, cleanup, attach, kill,
else execute; the empty-string const of `-a`/`-k` turns into `None`
(auto-detect). -/
def actionOf (p : ParsedArgs) : CliAction :=
  if p.clear then .clearCreds
  else if p.list then .listSessions
  else if p.cleanup then .cleanupSessions
  else
    match p.attach with
    | some a => .attachSession (if a = "" then none else some a)
    | none =>
      match p.kill with
      | some k => .killSession (if k = "" then none else some k) p.yes
      | none => .executeCommand

/-- The configuration file state after `main` returns: line 298 writes
the config with the previous `last_server`; every branch except
`--clear` then overwrites it with `client.current_server` when that is
truthy (`cli.py` lines 307-350). -/
def mainFinalConfig (host user : String) (port : Int) (auto : Bool)
    (last_server : Option String) (action : CliAction)
    (current_server : Option String) : ConfigFile :=
  if action = .clearCreds then save_config host user last_server auto port
  else
    match current_server with
    | some s =>
      if s = "" then save_config host user last_server auto port
      else save_config host user (some s) auto port
    | none => save_config host user last_server auto port

/-! ## Helper lemmas about the streaming loop -/

/-- The streaming loop only ever issues `capture` commands: in
particular it never kills, dispatches into, or destroys the remote
session, whatever the schedule holds. -/
theorem streamLoop_cmds_capture (n : String) (timeout : Option Nat)
    (idleTimeout pollInterval : Nat) :
    ∀ (events : List PollEvent) (st : StreamState),
      ∀ c ∈ (streamLoop n timeout idleTimeout pollInterval events st).cmds,
        c = .capture n := by
  intro events
  induction events with
  | nil =>
    intro st c hc
    simp [streamLoop] at hc
  | cons ev rest ih =>
    intro st c hc
    cases ev with
    | interrupt => simp [streamLoop] at hc
    | fail =>
      simp [streamLoop] at hc
      exact hc
    | ok chunk exited =>
      simp only [streamLoop] at hc
      split at hc
      · simp at hc
        exact hc
      · split at hc
        · simp at hc
          exact hc
        · split at hc
          · simp at hc
            exact hc
          · simp only [List.mem_cons] at hc
            rcases hc with h | h
            · exact h
            · exact ih _ c h

/-- If the streaming loop terminates with `Error`, the captured output
it returns is the initial capture followed by every chunk the schedule
delivered before its first terminal observation. -/
theorem streamLoop_error_captured (n : String) (timeout : Option Nat)
    (idleTimeout pollInterval : Nat) :
    ∀ (events : List PollEvent) (st : StreamState),
      (streamLoop n timeout idleTimeout pollInterval events st).status = .Error →
      (streamLoop n timeout idleTimeout pollInterval events st).captured =
        st.captured ++ chunksBefore events := by
  intro events
  induction events with
  | nil =>
    intro st h
    simp [streamLoop] at h
  | cons ev rest ih =>
    intro st h
    cases ev with
    | interrupt => simp [streamLoop] at h
    | fail =>
      simp [streamLoop, chunksBefore, String.append_empty]
    | ok chunk exited =>
      by_cases hex : exited = true
      · simp [streamLoop, hex] at h
      · by_cases hidle : idleTimeout ≤ (afterOutput st chunk).idle
        · simp [streamLoop, hex, hidle] at h
        · by_cases hto : timeoutElapsed timeout (afterOutput st chunk).elapsed = true
          · simp [streamLoop, hex, hidle, hto] at h
          · have hstep : streamLoop n timeout idleTimeout pollInterval
                (.ok chunk exited :: rest) st =
                ⟨(streamLoop n timeout idleTimeout pollInterval rest
                    (tick (afterOutput st chunk) pollInterval)).status,
                  (streamLoop n timeout idleTimeout pollInterval rest
                    (tick (afterOutput st chunk) pollInterval)).captured,
                  .capture n :: (streamLoop n timeout idleTimeout pollInterval rest
                    (tick (afterOutput st chunk) pollInterval)).cmds⟩ := by
              simp [streamLoop, hex, hidle, hto]
            rw [hstep] at h ⊢
            have hrec := ih _ h
            have hcap : (tick (afterOutput st chunk) pollInterval).captured =
                (afterOutput st chunk).captured := rfl
            rw [hcap] at hrec
            simp only [hrec, chunksBefore]
            by_cases hch : chunk = ""
            · simp [afterOutput, hch, hex, String.empty_append]
            · simp [afterOutput, hch, hex, String.append_assoc]

/-- The streaming loop never reports `Blocked`: that status only comes
from the conflict check in `execute`. -/
theorem streamLoop_status_ne_blocked (n : String) (timeout : Option Nat)
    (idleTimeout pollInterval : Nat) :
    ∀ (events : List PollEvent) (st : StreamState),
      (streamLoop n timeout idleTimeout pollInterval events st).status ≠ .Blocked := by
  intro events
  induction events with
  | nil => intro st; simp [streamLoop]
  | cons ev rest ih =>
    intro st
    cases ev with
    | interrupt => simp [streamLoop]
    | fail => simp [streamLoop]
    | ok chunk exited =>
      simp only [streamLoop]
      split
      · simp
      · split
        · simp
        · split
          · simp
          · exact ih _

/-! ## Helper lemmas about the argument parser -/

set_option maxHeartbeats 2000000 in
/-- `flagToken` only writes the field its token names: away from the
force and auto tokens those fields are preserved, the timeout fields
are never written by a flag, and a timeout/idle pending state can only
arise from the corresponding tokens. -/
theorem flagToken_preserve (p : ParsedArgs) (t : String) (q : ParsedArgs)
    (pend : Option Pending) (h : flagToken p t = some (q, pend)) :
    (t ≠ "-f" → t ≠ "--force" → q.force = p.force) ∧
    (t ≠ "--auto" → t ≠ "--no-auto" → q.auto = p.auto) ∧
    q.timeout = p.timeout ∧
    q.idle_timeout = p.idle_timeout ∧
    (pend = some .timeout → t = "-t" ∨ t = "--timeout") ∧
    (pend = some .idle → t = "-i" ∨ t = "--idle-timeout") := by
  unfold flagToken at h
  by_cases c1 : t = "-C" ∨ t = "--clear"
  · rw [if_pos c1] at h
    injection h with h2
    injection h2 with hq hpend
    subst hq
    subst hpend
    simp
  rw [if_neg c1] at h
  by_cases c2 : t = "-n" ∨ t = "--new"
  · rw [if_pos c2] at h
    injection h with h2
    injection h2 with hq hpend
    subst hq
    subst hpend
    simp
  rw [if_neg c2] at h
  by_cases c3 : t = "-f" ∨ t = "--force"
  · rw [if_pos c3] at h
    injection h with h2
    injection h2 with hq hpend
    subst hq
    subst hpend
    rcases c3 with h' | h' <;> subst h' <;> simp
  rw [if_neg c3] at h
  by_cases c4 : t = "-l" ∨ t = "--list"
  · rw [if_pos c4] at h
    injection h with h2
    injection h2 with hq hpend
    subst hq
    subst hpend
    simp
  rw [if_neg c4] at h
  by_cases c5 : t = "--cleanup"
  · rw [if_pos c5] at h
    injection h with h2
    injection h2 with hq hpend
    subst hq
    subst hpend
    simp
  rw [if_neg c5] at h
  by_cases c6 : t = "-y" ∨ t = "--yes"
  · rw [if_pos c6] at h
    injection h with h2
    injection h2 with hq hpend
    subst hq
    subst hpend
    simp
  rw [if_neg c6] at h
  by_cases c7 : t = "--auto"
  · rw [if_pos c7] at h
    injection h with h2
    injection h2 with hq hpend
    subst hq
    subst hpend
    subst c7
    simp
  rw [if_neg c7] at h
  by_cases c8 : t = "--no-auto"
  · rw [if_pos c8] at h
    injection h with h2
    injection h2 with hq hpend
    subst hq
    subst hpend
    subst c8
    simp
  rw [if_neg c8] at h
  by_cases c9 : t = "-H" ∨ t = "--host"
  · rw [if_pos c9] at h
    injection h with h2
    injection h2 with hq hpend
    subst hq
    subst hpend
    simp
  rw [if_neg c9] at h
  by_cases c10 : t = "-U" ∨ t = "--user"
  · rw [if_pos c10] at h
    injection h with h2
    injection h2 with hq hpend
    subst hq
    subst hpend
    simp
  rw [if_neg c10] at h
  by_cases c11 : t = "-p" ∨ t = "--port"
  · rw [if_pos c11] at h
    injection h with h2
    injection h2 with hq hpend
    subst hq
    subst hpend
    simp
  rw [if_neg c11] at h
  by_cases c12 : t = "-t" ∨ t = "--timeout"
  · rw [if_pos c12] at h
    injection h with h2
    injection h2 with hq hpend
    subst hq
    subst hpend
    simp [c12]
  rw [if_neg c12] at h
  by_cases c13 : t = "-i" ∨ t = "--idle-timeout"
  · rw [if_pos c13] at h
    injection h with h2
    injection h2 with hq hpend
    subst hq
    subst hpend
    simp [c13]
  rw [if_neg c13] at h
  by_cases c14 : t = "-a" ∨ t = "--attach"
  · rw [if_pos c14] at h
    injection h with h2
    injection h2 with hq hpend
    subst hq
    subst hpend
    simp
  rw [if_neg c14] at h
  by_cases c15 : t = "-k" ∨ t = "--kill"
  · rw [if_pos c15] at h
    injection h with h2
    injection h2 with hq hpend
    subst hq
    subst hpend
    simp
  rw [if_neg c15] at h
  by_cases c16 : isOptionLike t = true
  · rw [if_pos c16] at h
    exact Option.noConfusion h
  rw [if_neg c16] at h
  injection h with h2
  injection h2 with hq hpend
  subst hq
  subst hpend
  simp

/-- `applyValue` never writes force or auto, and writes a timeout field
only for the matching pending option. -/
theorem applyValue_preserve (p : ParsedArgs) (f : Pending) (v : String)
    (q : ParsedArgs) (h : applyValue p f v = some q) :
    q.force = p.force ∧ q.auto = p.auto ∧
    (f ≠ .timeout → q.timeout = p.timeout) ∧
    (f ≠ .idle → q.idle_timeout = p.idle_timeout) := by
  cases f <;> simp only [applyValue] at h <;> (try split at h)
  all_goals try (exact Option.noConfusion h)
  all_goals
    (injection h with h2
     subst h2
     simp)

/-- Resolving an `nargs="?"` const touches only `attach`/`kill`. -/
theorem resolveOptional_preserve (p : ParsedArgs) (f : Pending) :
    (resolveOptional p f).force = p.force ∧
    (resolveOptional p f).auto = p.auto ∧
    (resolveOptional p f).timeout = p.timeout ∧
    (resolveOptional p f).idle_timeout = p.idle_timeout := by
  cases f <;> simp [resolveOptional]

/-- One parser step preserves force and auto away from their tokens,
and preserves the timeout fields (and absence of a timeout/idle pending
state) away from theirs. -/
theorem parseStep_preserve (st : ParseSt) (t : String) :
    (t ≠ "-f" → t ≠ "--force" →
      (parseStep st t).opts.force = st.opts.force) ∧
    (t ≠ "--auto" → t ≠ "--no-auto" →
      (parseStep st t).opts.auto = st.opts.auto) ∧
    (t ≠ "-t" → t ≠ "--timeout" → st.pending ≠ some .timeout →
      (parseStep st t).opts.timeout = st.opts.timeout ∧
        (parseStep st t).pending ≠ some .timeout) ∧
    (t ≠ "-i" → t ≠ "--idle-timeout" → st.pending ≠ some .idle →
      (parseStep st t).opts.idle_timeout = st.opts.idle_timeout ∧
        (parseStep st t).pending ≠ some .idle) := by
  obtain ⟨p, pending, err⟩ := st
  cases err with
  | true =>
    have hs : parseStep ⟨p, pending, true⟩ t = ⟨p, pending, true⟩ := by
      simp [parseStep]
    rw [hs]
    exact ⟨fun _ _ => rfl, fun _ _ => rfl, fun _ _ h => ⟨rfl, h⟩,
      fun _ _ h => ⟨rfl, h⟩⟩
  | false =>
    cases pending with
    | none =>
      cases hf : flagToken p t with
      | none =>
        have hs : parseStep ⟨p, none, false⟩ t = ⟨p, none, true⟩ := by
          simp [parseStep, hf]
        rw [hs]
        exact ⟨fun _ _ => rfl, fun _ _ => rfl, fun _ _ _ => ⟨rfl, by simp⟩,
          fun _ _ _ => ⟨rfl, by simp⟩⟩
      | some pr =>
        obtain ⟨p2, pend2⟩ := pr
        have hp := flagToken_preserve p t p2 pend2 hf
        have hs : parseStep ⟨p, none, false⟩ t = ⟨p2, pend2, false⟩ := by
          simp [parseStep, hf]
        rw [hs]
        refine ⟨fun h1 h2 => hp.1 h1 h2, fun h1 h2 => hp.2.1 h1 h2,
          fun h1 h2 _ => ⟨hp.2.2.1, fun hc => ?_⟩,
          fun h1 h2 _ => ⟨hp.2.2.2.1, fun hc => ?_⟩⟩
        · rcases hp.2.2.2.2.1 hc with h' | h'
          · exact h1 h'
          · exact h2 h'
        · rcases hp.2.2.2.2.2 hc with h' | h'
          · exact h1 h'
          · exact h2 h'
    | some f =>
      cases hopt : isOptionLike t with
      | false =>
        cases ha : applyValue p f t with
        | none =>
          have hs : parseStep ⟨p, some f, false⟩ t = ⟨p, none, true⟩ := by
            simp [parseStep, hopt, ha]
          rw [hs]
          exact ⟨fun _ _ => rfl, fun _ _ => rfl, fun _ _ _ => ⟨rfl, by simp⟩,
            fun _ _ _ => ⟨rfl, by simp⟩⟩
        | some p2 =>
          have hp := applyValue_preserve p f t p2 ha
          have hs : parseStep ⟨p, some f, false⟩ t = ⟨p2, none, false⟩ := by
            simp [parseStep, hopt, ha]
          rw [hs]
          exact ⟨fun _ _ => hp.1, fun _ _ => hp.2.1,
            fun _ _ hpend => ⟨hp.2.2.1 fun hfe => hpend (by rw [hfe]), by simp⟩,
            fun _ _ hpend => ⟨hp.2.2.2 fun hfe => hpend (by rw [hfe]), by simp⟩⟩
      | true =>
        cases hov : optionalValued f with
        | false =>
          have hs : parseStep ⟨p, some f, false⟩ t = ⟨p, none, true⟩ := by
            simp [parseStep, hopt, hov]
          rw [hs]
          exact ⟨fun _ _ => rfl, fun _ _ => rfl, fun _ _ _ => ⟨rfl, by simp⟩,
            fun _ _ _ => ⟨rfl, by simp⟩⟩
        | true =>
          cases hf : flagToken (resolveOptional p f) t with
          | none =>
            have hs : parseStep ⟨p, some f, false⟩ t = ⟨p, none, true⟩ := by
              simp [parseStep, hopt, hov, hf]
            rw [hs]
            exact ⟨fun _ _ => rfl, fun _ _ => rfl, fun _ _ _ => ⟨rfl, by simp⟩,
              fun _ _ _ => ⟨rfl, by simp⟩⟩
          | some pr =>
            obtain ⟨p2, pend2⟩ := pr
            have hp := flagToken_preserve _ t p2 pend2 hf
            have hro := resolveOptional_preserve p f
            have hs : parseStep ⟨p, some f, false⟩ t = ⟨p2, pend2, false⟩ := by
              simp [parseStep, hopt, hov, hf]
            rw [hs]
            refine ⟨fun h1 h2 => (hp.1 h1 h2).trans hro.1,
              fun h1 h2 => (hp.2.1 h1 h2).trans hro.2.1,
              fun h1 h2 _ => ⟨hp.2.2.1.trans hro.2.2.1, fun hc => ?_⟩,
              fun h1 h2 _ => ⟨hp.2.2.2.1.trans hro.2.2.2, fun hc => ?_⟩⟩
            · rcases hp.2.2.2.2.1 hc with h' | h'
              · exact h1 h'
              · exact h2 h'
            · rcases hp.2.2.2.2.2 hc with h' | h'
              · exact h1 h'
              · exact h2 h'

/-- Folding the whole token list preserves force, auto and the timeout
fields when their tokens never occur. -/
theorem foldl_parseStep_preserve (args : List String) : ∀ (st : ParseSt),
    ("-f" ∉ args → "--force" ∉ args →
      (args.foldl parseStep st).opts.force = st.opts.force) ∧
    ("--auto" ∉ args → "--no-auto" ∉ args →
      (args.foldl parseStep st).opts.auto = st.opts.auto) ∧
    ("-t" ∉ args → "--timeout" ∉ args → st.pending ≠ some .timeout →
      (args.foldl parseStep st).opts.timeout = st.opts.timeout ∧
        (args.foldl parseStep st).pending ≠ some .timeout) ∧
    ("-i" ∉ args → "--idle-timeout" ∉ args → st.pending ≠ some .idle →
      (args.foldl parseStep st).opts.idle_timeout = st.opts.idle_timeout ∧
        (args.foldl parseStep st).pending ≠ some .idle) := by
  induction args with
  | nil =>
    intro st
    exact ⟨fun _ _ => rfl, fun _ _ => rfl,
      fun _ _ h => ⟨rfl, h⟩, fun _ _ h => ⟨rfl, h⟩⟩
  | cons t rest ih =>
    intro st
    simp only [List.foldl_cons, List.mem_cons, not_or]
    have hstep := parseStep_preserve st t
    have hrest := ih (parseStep st t)
    refine ⟨fun h1 h2 => ?_, fun h1 h2 => ?_, fun h1 h2 h3 => ?_, fun h1 h2 h3 => ?_⟩
    · exact (hrest.1 h1.2 h2.2).trans
        (hstep.1 (fun he => h1.1 he.symm) (fun he => h2.1 he.symm))
    · exact (hrest.2.1 h1.2 h2.2).trans
        (hstep.2.1 (fun he => h1.1 he.symm) (fun he => h2.1 he.symm))
    · obtain ⟨hs1, hs2⟩ :=
        hstep.2.2.1 (fun he => h1.1 he.symm) (fun he => h2.1 he.symm) h3
      obtain ⟨hr1, hr2⟩ := hrest.2.2.1 h1.2 h2.2 hs2
      exact ⟨hr1.trans hs1, hr2⟩
    · obtain ⟨hs1, hs2⟩ :=
        hstep.2.2.2 (fun he => h1.1 he.symm) (fun he => h2.1 he.symm) h3
      obtain ⟨hr1, hr2⟩ := hrest.2.2.2 h1.2 h2.2 hs2
      exact ⟨hr1.trans hs1, hr2⟩

/-- Finishing the parse keeps every field other than `attach`/`kill`. -/
theorem parseFinish_preserve (st : ParseSt) (q : ParsedArgs)
    (h : parseFinish st = some q) :
    q.force = st.opts.force ∧ q.auto = st.opts.auto ∧
    q.timeout = st.opts.timeout ∧ q.idle_timeout = st.opts.idle_timeout := by
  simp only [parseFinish] at h
  split at h
  · exact absurd h (by simp)
  · split at h
    · split at h
      · rename_i f _ _
        have hro := resolveOptional_preserve st.opts f
        simp only [Option.some_inj] at h
        subst h
        exact hro
      · exact absurd h (by simp)
    · simp only [Option.some_inj] at h
      subst h
      exact ⟨rfl, rfl, rfl, rfl⟩

/-- A successful parse of a token list that never mentions the force or
auto options leaves `force` at its default `false` and `auto` at its
default `None`. -/
theorem parseTokens_force_auto (args : List String) (q : ParsedArgs)
    (h : parseTokens args = some q)
    (h1 : "-f" ∉ args) (h2 : "--force" ∉ args)
    (h3 : "--auto" ∉ args) (h4 : "--no-auto" ∉ args) :
    q.force = false ∧ q.auto = none := by
  have hfold := foldl_parseStep_preserve args ⟨{}, none, false⟩
  have hfin := parseFinish_preserve _ q h
  exact ⟨(hfin.1.trans (hfold.1 h1 h2) : _),
    (hfin.2.1.trans (hfold.2.1 h3 h4) : _)⟩

/-- A successful parse of a token list that never mentions the timeout
options leaves `timeout` at its default `None` and `idle_timeout` at
its default 3600. -/
theorem parseTokens_timeouts (args : List String) (q : ParsedArgs)
    (h : parseTokens args = some q)
    (h1 : "-t" ∉ args) (h2 : "--timeout" ∉ args)
    (h3 : "-i" ∉ args) (h4 : "--idle-timeout" ∉ args) :
    q.timeout = none ∧ q.idle_timeout = 3600 := by
  have hfold := foldl_parseStep_preserve args ⟨{}, none, false⟩
  have hfin := parseFinish_preserve _ q h
  exact ⟨(hfin.2.2.1.trans (hfold.2.2.1 h1 h2 (by simp)).1 : _),
    (hfin.2.2.2.trans (hfold.2.2.2 h3 h4 (by simp)).1 : _)⟩

/-! ## Helper lemmas about connection-target parsing -/

/-- A nonempty character list never packs to the empty string. -/
theorem string_mk_ne_empty (l : List Char) (hne : l ≠ []) : String.mk l ≠ "" := by
  intro hc
  exact hne (congrArg String.data hc)

/-- `charsOpt` never yields the empty string: an empty user segment
becomes `none`. -/
theorem charsOpt_ne_empty (o : Option (List Char)) : charsOpt o ≠ some "" := by
  match o with
  | none => simp [charsOpt]
  | some [] => simp [charsOpt]
  | some (c :: cs) =>
    simp only [charsOpt, ne_eq, Option.some_inj]
    intro hc
    have h2 := congrArg String.data hc
    simp at h2

/-- `hostOpt` never yields the empty string: an empty host segment
becomes `none`. -/
theorem hostOpt_ne_empty (l : List Char) : hostOpt l ≠ some "" := by
  unfold hostOpt
  split
  · simp
  · simp only [ne_eq, Option.some_inj]
    intro hc
    rename_i hne
    exact hne (congrArg String.data hc)

/-! ## Claim theorems for the engine -/

/-- C1: for every `Running` session `S`, `execute` with target `S`,
`auto = false` and `force = false` returns the `Blocked` status, leaves
the remote store — and so `S`'s running process — untouched, and issues
no remote command beyond the single conflict-check query. -/
theorem execute_blocked_on_running (r : Remote) (target cmd : String)
    (timeout : Option Nat) (idleTimeout pollInterval : Nat)
    (events : List PollEvent) (pid : Nat)
    (h : isRunning r target = true) :
    (execute r target cmd false false timeout idleTimeout pollInterval events pid).status
        = .Blocked ∧
    (execute r target cmd false false timeout idleTimeout pollInterval events pid).remote
        = r ∧
    (execute r target cmd false false timeout idleTimeout pollInterval events pid).cmds
        = [.query] := by
  simp [execute, h]

/-- C1 witness: a concrete remote whose primary session has a live
process; `execute` without auto or force reports `Blocked` and changes
nothing. -/
theorem execute_blocked_on_running_witness :
    isRunning ⟨[⟨"remote_task", some 17, none, "sleep 100", ""⟩]⟩ "remote_task" = true ∧
    ((execute ⟨[⟨"remote_task", some 17, none, "sleep 100", ""⟩]⟩ "remote_task"
        "echo done" false false none 3600 2 [] 99).status = .Blocked ∧
      (execute ⟨[⟨"remote_task", some 17, none, "sleep 100", ""⟩]⟩ "remote_task"
        "echo done" false false none 3600 2 [] 99).remote
          = ⟨[⟨"remote_task", some 17, none, "sleep 100", ""⟩]⟩ ∧
      (execute ⟨[⟨"remote_task", some 17, none, "sleep 100", ""⟩]⟩ "remote_task"
        "echo done" false false none 3600 2 [] 99).cmds = [.query]) :=
  ⟨by decide, execute_blocked_on_running _ _ _ _ _ _ _ _ (by decide)⟩

/-- C3: a poll loop cancelled by the interrupt signal returns the
`Interrupted` outcome with nothing further issued; across any schedule
the loop only ever issues reads (never a kill), and `Interrupted` is
distinct from `Error`. -/
theorem stream_interrupt_leaves_remote (n : String) (timeout : Option Nat)
    (idleTimeout pollInterval : Nat) (events : List PollEvent) (st : StreamState) :
    (streamLoop n timeout idleTimeout pollInterval
        (.interrupt :: events) st).status = .Interrupted ∧
    (streamLoop n timeout idleTimeout pollInterval
        (.interrupt :: events) st).cmds = [] ∧
    (∀ c ∈ (streamLoop n timeout idleTimeout pollInterval events st).cmds,
      c = .capture n ∧ c ≠ .killCmd n) ∧
    OutcomeStatus.Interrupted ≠ OutcomeStatus.Error := by
  refine ⟨rfl, rfl, ?_, by decide⟩
  intro c hc
  have hcap := streamLoop_cmds_capture n timeout idleTimeout pollInterval events st c hc
  exact ⟨hcap, by simp [hcap]⟩

/-- C3 witness: a concrete interrupted run returns `Interrupted` and
issued no remote command at all. -/
theorem stream_interrupt_leaves_remote_witness :
    (streamLoop "task_0" none 3600 2 [.interrupt] ⟨"", 0, 0⟩).status = .Interrupted ∧
    (streamLoop "task_0" none 3600 2 [.interrupt] ⟨"", 0, 0⟩).cmds = [] ∧
    (∀ c ∈ (streamLoop "task_0" none 3600 2 [] ⟨"", 0, 0⟩).cmds,
      c = .capture "task_0" ∧ c ≠ .killCmd "task_0") ∧
    OutcomeStatus.Interrupted ≠ OutcomeStatus.Error :=
  stream_interrupt_leaves_remote "task_0" none 3600 2 [] ⟨"", 0, 0⟩

/-- C4: whenever the streaming loop ends in a transport failure, the
`Error` outcome carries the complete output observed before the
failure (initial capture plus every chunk delivered before the first
terminal observation); a failure's outcome at the very next poll keeps
the capture so far. -/
theorem stream_fail_keeps_output (n : String) (timeout : Option Nat)
    (idleTimeout pollInterval : Nat) (events : List PollEvent) (st : StreamState) :
    ((streamLoop n timeout idleTimeout pollInterval events st).status = .Error →
      (streamLoop n timeout idleTimeout pollInterval events st).captured =
        st.captured ++ chunksBefore events) ∧
    (streamLoop n timeout idleTimeout pollInterval (.fail :: events) st).status = .Error ∧
    (streamLoop n timeout idleTimeout pollInterval (.fail :: events) st).captured =
      st.captured := by
  exact ⟨streamLoop_error_captured n timeout idleTimeout pollInterval events st, rfl, rfl⟩

/-- C4 witness: output "ab" observed, then a transport failure: the
outcome is `Error` and still carries the initial capture "x" plus
"ab". -/
theorem stream_fail_keeps_output_witness :
    (streamLoop "task_0" none 10 1 [.ok "ab" false, .fail] ⟨"x", 0, 0⟩).captured =
      "x" ++ chunksBefore [.ok "ab" false, .fail] :=
  (stream_fail_keeps_output "task_0" none 10 1 [.ok "ab" false, .fail]
    ⟨"x", 0, 0⟩).1 (by decide)

/-- C5: the four process exit statuses are pairwise distinct, and the
status-to-exit-code mapping is injective away from `Interrupted`, so a
driving script can map each exit code back to exactly one meaning. -/
theorem exit_codes_distinct :
    EXIT_COMPLETED ≠ EXIT_ERROR ∧ EXIT_COMPLETED ≠ EXIT_BLOCKED ∧
    EXIT_COMPLETED ≠ EXIT_STILL_RUNNING ∧ EXIT_ERROR ≠ EXIT_BLOCKED ∧
    EXIT_ERROR ≠ EXIT_STILL_RUNNING ∧ EXIT_BLOCKED ≠ EXIT_STILL_RUNNING ∧
    (∀ s₁ s₂ : OutcomeStatus, s₁ ≠ .Interrupted → s₂ ≠ .Interrupted →
      exitCodeOf s₁ = exitCodeOf s₂ → s₁ = s₂) := by
  decide

/-- C5 witness: the injectivity clause applied at the `Blocked`
status. -/
theorem exit_codes_distinct_witness :
    OutcomeStatus.Blocked = OutcomeStatus.Blocked :=
  exit_codes_distinct.2.2.2.2.2.2 .Blocked .Blocked (by decide) (by decide) rfl

/-- C6: `cleanup` destroys exactly the pool-class sessions whose
derived state is `Idle` or `Completed`, and the primary-named session
is never among the destroyed ones. -/
theorem cleanup_pool_idle_only (r : Remote) :
    (∀ name, name ∈ (cleanup r).2 ↔
      ∃ s ∈ r.sessions, s.name = name ∧ isPoolName s.name = true ∧
        (stateOf s = .Idle ∨ stateOf s = .Completed)) ∧
    primaryName ∉ (cleanup r).2 := by
  have hmem : ∀ name, name ∈ (cleanup r).2 ↔
      ∃ s ∈ r.sessions, s.name = name ∧ isPoolName s.name = true ∧
        (stateOf s = .Idle ∨ stateOf s = .Completed) := by
    intro name
    simp only [cleanup, List.mem_map, List.mem_filter, cleanupVictim]
    constructor
    · rintro ⟨s, ⟨hs, hv⟩, hname⟩
      simp only [Bool.and_eq_true, Bool.or_eq_true, beq_iff_eq] at hv
      exact ⟨s, hs, hname, hv.1, hv.2⟩
    · rintro ⟨s, hs, hname, hpool, hstate⟩
      refine ⟨s, ⟨hs, ?_⟩, hname⟩
      simp only [Bool.and_eq_true, Bool.or_eq_true, beq_iff_eq]
      exact ⟨hpool, hstate⟩
  refine ⟨hmem, ?_⟩
  intro hcontra
  rcases (hmem primaryName).mp hcontra with ⟨s, _, hname, hpool, _⟩
  rw [hname] at hpool
  exact absurd hpool (by decide)

/-- C6 witness: on a concrete store holding a running primary, an idle
primary-named store, an idle pool session and a running pool session,
cleanup removes exactly the idle pool session. -/
theorem cleanup_pool_idle_only_witness :
    "remote_task" ∉ (cleanup ⟨[⟨"remote_task", none, none, "", ""⟩,
      ⟨"task_0", none, some 0, "ls", "ok"⟩,
      ⟨"task_1", some 4, none, "sleep 50", ""⟩]⟩).2 ∧
    (cleanup ⟨[⟨"remote_task", none, none, "", ""⟩,
      ⟨"task_0", none, some 0, "ls", "ok"⟩,
      ⟨"task_1", some 4, none, "sleep 50", ""⟩]⟩).2 = ["task_0"] :=
  ⟨(cleanup_pool_idle_only ⟨[⟨"remote_task", none, none, "", ""⟩,
      ⟨"task_0", none, some 0, "ls", "ok"⟩,
      ⟨"task_1", some 4, none, "sleep 50", ""⟩]⟩).2, by decide⟩

/-! ## Claim theorems for the CLI -/

/-- C2 counterexample: an invocation with no force, no auto/no-auto and
no saved preference parses with `auto = None`, the CLI resolves `auto`
to `true` (not `false`), and the execute call it makes against a
running session does not yield `Blocked`. -/
theorem auto_default_counterexample :
    parseTokens ["host.example.com", "echo", "hi"] =
      some { positional := ["host.example.com", "echo", "hi"] } ∧
    resolveAuto none none ≠ false ∧
    (executeCallOf { positional := ["host.example.com", "echo", "hi"] } "echo hi"
      (resolveAuto none none)).auto ≠ false ∧
    (execute ⟨[⟨"remote_task", some 3, none, "sleep 100", ""⟩]⟩ "remote_task" "echo hi"
      false (resolveAuto none none) none 3600 2 [.ok "done" true] 7).status ≠ .Blocked := by
  refine ⟨by decide, by decide, by decide, by decide⟩

/-- C2 amended: with no force option, no auto/no-auto option and no
saved auto preference, the invocation runs execute with `auto` enabled
(the default is `true`), so a conflict with a running session yields a
fresh pool session rather than `Blocked`; blocking requires an explicit
`--no-auto` or a saved `auto_new_session = false`. -/
theorem auto_enabled_by_default (args : List String) (p : ParsedArgs)
    (hparse : parseTokens args = some p)
    (hf1 : "-f" ∉ args) (hf2 : "--force" ∉ args)
    (ha1 : "--auto" ∉ args) (ha2 : "--no-auto" ∉ args)
    (r : Remote) (target cmd ucmd : String) (timeout : Option Nat)
    (idleTimeout pollInterval pid : Nat) (events : List PollEvent)
    (hrun : isRunning r target = true) :
    p.force = false ∧ p.auto = none ∧
    (executeCallOf p ucmd (resolveAuto p.auto none)).auto = true ∧
    (execute r target cmd p.force (resolveAuto p.auto none) timeout idleTimeout
        pollInterval events pid).status ≠ .Blocked ∧
    (execute r target cmd p.force (resolveAuto p.auto none) timeout idleTimeout
        pollInterval events pid).usedSession = some (freshPoolName r) := by
  obtain ⟨hforce, hauto⟩ := parseTokens_force_auto args p hparse hf1 hf2 ha1 ha2
  have hres : resolveAuto p.auto none = true := by
    rw [hauto]
    decide
  refine ⟨hforce, hauto, by simp [executeCallOf, hres], ?_, ?_⟩
  · rw [hforce, hres]
    simp only [execute, hrun]
    simp only [Bool.not_eq_true, not_true_eq_false, if_false, Bool.false_eq_true, if_true]
    exact streamLoop_status_ne_blocked _ _ _ _ _ _
  · rw [hforce, hres]
    simp [execute, hrun]

/-- C2 amended witness: a concrete no-flag invocation against a busy
primary session dispatches into the fresh pool session instead of
blocking. -/
theorem auto_enabled_by_default_witness :
    ({ positional := ["host.example.com", "echo", "hi"] } : ParsedArgs).force = false ∧
    ({ positional := ["host.example.com", "echo", "hi"] } : ParsedArgs).auto = none ∧
    (executeCallOf { positional := ["host.example.com", "echo", "hi"] } "echo hi"
      (resolveAuto ({ positional := ["host.example.com", "echo", "hi"] } :
        ParsedArgs).auto none)).auto = true ∧
    (execute ⟨[⟨"remote_task", some 3, none, "sleep 100", ""⟩]⟩ "remote_task" "echo hi"
      ({ positional := ["host.example.com", "echo", "hi"] } : ParsedArgs).force
      (resolveAuto ({ positional := ["host.example.com", "echo", "hi"] } :
        ParsedArgs).auto none) none 3600 2 [.ok "done" true] 7).status ≠ .Blocked ∧
    (execute ⟨[⟨"remote_task", some 3, none, "sleep 100", ""⟩]⟩ "remote_task" "echo hi"
      ({ positional := ["host.example.com", "echo", "hi"] } : ParsedArgs).force
      (resolveAuto ({ positional := ["host.example.com", "echo", "hi"] } :
        ParsedArgs).auto none) none 3600 2 [.ok "done" true] 7).usedSession =
      some (freshPoolName ⟨[⟨"remote_task", some 3, none, "sleep 100", ""⟩]⟩) :=
  auto_enabled_by_default ["host.example.com", "echo", "hi"]
    { positional := ["host.example.com", "echo", "hi"] } (by decide)
    (by decide) (by decide) (by decide) (by decide)
    ⟨[⟨"remote_task", some 3, none, "sleep 100", ""⟩]⟩ "remote_task" "echo hi"
    "echo hi" none 3600 2 7 [.ok "done" true] (by decide)

/-- C7: an invocation that omits the timeout option calls execute with
`timeout = None`, under which the absolute-timeout guard never fires,
and the idle timeout keeps its nonzero default of 3600 seconds. -/
theorem timeout_unset_idle_default (args : List String) (p : ParsedArgs)
    (ucmd : String) (a : Bool)
    (hparse : parseTokens args = some p)
    (h1 : "-t" ∉ args) (h2 : "--timeout" ∉ args)
    (h3 : "-i" ∉ args) (h4 : "--idle-timeout" ∉ args) :
    (executeCallOf p ucmd a).timeout = none ∧
    (executeCallOf p ucmd a).idle_timeout = 3600 ∧
    (∀ e, timeoutElapsed none e = false) ∧
    ((3600 : Int) ≠ 0) := by
  obtain ⟨hto, hidle⟩ := parseTokens_timeouts args p hparse h1 h2 h3 h4
  exact ⟨by simp [executeCallOf, hto], by simp [executeCallOf, hidle],
    fun e => rfl, by decide⟩

/-- C7 witness: a plain invocation with only a host and a command. -/
theorem timeout_unset_idle_default_witness :
    (executeCallOf { positional := ["host.example.com", "ls"] } "ls" true).timeout
        = none ∧
    (executeCallOf { positional := ["host.example.com", "ls"] } "ls" true).idle_timeout
        = 3600 ∧
    (∀ e, timeoutElapsed none e = false) ∧
    ((3600 : Int) ≠ 0) :=
  timeout_unset_idle_default ["host.example.com", "ls"]
    { positional := ["host.example.com", "ls"] } "ls" true (by decide)
    (by decide) (by decide) (by decide) (by decide)

/-- C8: after any non-clear operation, a truthy `current_server` is
persisted verbatim as the `last_server` hint, and the remaining config
fields carry only the caller-side resolution (host, user, port, auto),
no other engine state. -/
theorem current_server_persisted (host user : String) (port : Int) (auto : Bool)
    (last : Option String) (action : CliAction) (s : String)
    (hs : s ≠ "") (ha : action ≠ .clearCreds) :
    (mainFinalConfig host user port auto last action (some s)).last_server = some s ∧
    (mainFinalConfig host user port auto last action (some s)).host = host ∧
    (mainFinalConfig host user port auto last action (some s)).user = user ∧
    (mainFinalConfig host user port auto last action (some s)).port = port ∧
    (mainFinalConfig host user port auto last action (some s)).auto_new_session
        = auto := by
  simp [mainFinalConfig, ha, save_config, hs]

/-- C8 witness: a list operation that reports session `task_9`. -/
theorem current_server_persisted_witness :
    (mainFinalConfig "h" "u" 22 true (some "old") .listSessions
        (some "task_9")).last_server = some "task_9" ∧
    (mainFinalConfig "h" "u" 22 true (some "old") .listSessions
        (some "task_9")).host = "h" ∧
    (mainFinalConfig "h" "u" 22 true (some "old") .listSessions
        (some "task_9")).user = "u" ∧
    (mainFinalConfig "h" "u" 22 true (some "old") .listSessions
        (some "task_9")).port = 22 ∧
    (mainFinalConfig "h" "u" 22 true (some "old") .listSessions
        (some "task_9")).auto_new_session = true :=
  current_server_persisted "h" "u" 22 true (some "old") .listSessions "task_9"
    (by decide) (by decide)

/-- C9: `parse_connection_target` either succeeds with every reported
port in `1..65535` and no empty user or host segment, or fails; and it
fails exactly when the host part has a `':'` suffix that is not all
digits or names a port outside `1..65535`. -/
theorem parse_connection_target_spec (arg : String) :
    (∀ u h prt, parse_connection_target arg = .ok (u, h, prt) →
      (∀ k, prt = some k → 1 ≤ k ∧ k ≤ 65535) ∧ u ≠ some "" ∧ h ≠ some "") ∧
    (exceptOk (parse_connection_target arg) = false ↔
      ∃ pre post, splitLast ':' (hostPartOf arg) = some (pre, post) ∧
        (pyIsdigit post = false ∨ digitsToNat post < 1 ∨ 65535 < digitsToNat post)) := by
  rcases hsp : splitLast ':' (hostPartOf arg) with _ | ⟨pre0, post0⟩
  · constructor
    · intro u h prt heq
      simp only [parse_connection_target, hsp, Except.ok.injEq, Prod.mk.injEq] at heq
      obtain ⟨hu, hh, hprt⟩ := heq
      subst hu
      subst hh
      subst hprt
      exact ⟨by simp, charsOpt_ne_empty _, hostOpt_ne_empty _⟩
    · constructor
      · intro habs
        exfalso
        simp [parse_connection_target, hsp, exceptOk] at habs
      · rintro ⟨pre, post, hps, _⟩
        exact Option.noConfusion hps
  · by_cases hdig : pyIsdigit post0 = true
    · by_cases hrange : digitsToNat post0 < 1 ∨ 65535 < digitsToNat post0
      · constructor
        · intro u h prt heq
          simp only [parse_connection_target, hsp, hdig, if_true] at heq
          rw [if_pos hrange] at heq
          exact Except.noConfusion heq
        · constructor
          · intro _
            refine ⟨pre0, post0, rfl, ?_⟩
            rcases hrange with h1 | h1
            · exact Or.inr (Or.inl h1)
            · exact Or.inr (Or.inr h1)
          · intro _
            simp only [parse_connection_target, hsp, hdig, if_true]
            rw [if_pos hrange]
            rfl
      · constructor
        · intro u h prt heq
          simp only [parse_connection_target, hsp, hdig, if_true] at heq
          rw [if_neg hrange] at heq
          simp only [Except.ok.injEq, Prod.mk.injEq] at heq
          obtain ⟨hu, hh, hprt⟩ := heq
          subst hu
          subst hh
          subst hprt
          have hb : ¬ digitsToNat post0 < 1 ∧ ¬ 65535 < digitsToNat post0 := by
            constructor
            · intro hc
              exact hrange (Or.inl hc)
            · intro hc
              exact hrange (Or.inr hc)
          refine ⟨?_, charsOpt_ne_empty _, hostOpt_ne_empty _⟩
          intro k hk
          injection hk with hk2
          subst hk2
          omega
        · constructor
          · intro habs
            exfalso
            simp only [parse_connection_target, hsp, hdig, if_true] at habs
            rw [if_neg hrange] at habs
            exact absurd habs (by simp [exceptOk])
          · rintro ⟨pre, post, hps, hcond⟩
            exfalso
            injection hps with hpair
            injection hpair with hpre hpost
            subst hpre
            subst hpost
            rcases hcond with hc | hc
            · rw [hdig] at hc
              exact Bool.noConfusion hc
            · exact hrange hc
    · constructor
      · intro u h prt heq
        simp only [parse_connection_target, hsp] at heq
        rw [if_neg hdig] at heq
        exact Except.noConfusion heq
      · constructor
        · intro _
          refine ⟨pre0, post0, rfl, Or.inl ?_⟩
          simpa using hdig
        · intro _
          simp only [parse_connection_target, hsp]
          rw [if_neg hdig]
          rfl

/-- C9 witness: a concrete target with a valid port, applied through
the theorem. -/
theorem parse_connection_target_spec_witness :
    ∀ k, (some 2222 : Option Nat) = some k → 1 ≤ k ∧ k ≤ 65535 :=
  (((parse_connection_target_spec "user@host:2222").1 (some "user") (some "host")
    (some 2222)) (by rfl)).1

/-- C10: the first positional is consumed as a connection target
exactly when it contains `'@'`, or starts without `'-'` and has a `'.'`
but no `'/'` and no space; and the resolution chains prefer the
positional target over the flag over the saved value, the port
defaulting to 22. -/
theorem target_detection_and_precedence
    (fa : String) (rest : List String)
    (t f : String) (sv : Option JVal) (ht : t ≠ "") (hf : f ≠ "")
    (tp fp : Int) (htp : tp ≠ 0) (hfp : fp ≠ 0) :
    (extractTarget (fa :: rest) ≠ .ok (none, none, none, fa :: rest) ↔
      (strHas fa '@' || (!strStarts fa "-" && !strHas fa '/' &&
        !strHas fa ' ' && strHas fa '.')) = true) ∧
    resolveHost (some t) (some f) sv = some t ∧
    resolveHost none (some f) sv = some f ∧
    resolveHost none none (some (.str t)) = some t ∧
    resolveUser (some t) (some f) sv = some t ∧
    resolveUser none (some f) sv = some f ∧
    resolveUser none none (some (.str t)) = some t ∧
    resolvePort (some tp) (some fp) sv = tp ∧
    resolvePort none (some fp) sv = fp ∧
    resolvePort none none none = 22 := by
  refine ⟨?_, ?_, ?_, ?_, ?_, ?_, ?_, ?_, ?_, rfl⟩
  · show extractTarget (fa :: rest) ≠ _ ↔ looksLikeTarget fa = true
    constructor
    · intro hne
      by_contra hL
      apply hne
      simp only [extractTarget]
      rw [if_neg hL]
    · intro hL
      simp only [extractTarget]
      rw [if_pos hL]
      cases hp : parse_connection_target fa with
      | ok tup =>
        obtain ⟨u, h, prt⟩ := tup
        intro hc
        simp only [Except.ok.injEq, Prod.mk.injEq] at hc
        exact (List.cons_ne_self fa rest).symm hc.2.2.2
      | error e => exact fun hc => Except.noConfusion hc
  · simp [resolveHost, firstTruthy, truthyStr, ht]
  · simp [resolveHost, firstTruthy, truthyStr, hf]
  · simp [resolveHost, firstTruthy, truthyStr, savedStr, ht]
  · simp [resolveUser, firstTruthy, truthyStr, ht]
  · simp [resolveUser, firstTruthy, truthyStr, hf]
  · simp [resolveUser, firstTruthy, truthyStr, savedStr, ht]
  · simp [resolvePort, truthyInt, htp]
  · simp [resolvePort, truthyInt, hfp]

/-- C10 witness: `script.py` is consumed as a hostname, and the
precedence chains at concrete values, including the port default. -/
theorem target_detection_and_precedence_witness :
    (extractTarget ["script.py"] ≠ .ok (none, none, none, ["script.py"])) ∧
    resolveHost (some "h1") (some "h2") none = some "h1" ∧
    resolvePort none none none = 22 := by
  have hm := target_detection_and_precedence "script.py" [] "h1" "h2" none
    (by decide) (by decide) 5 7 (by decide) (by decide)
  exact ⟨hm.1.mpr (by decide), hm.2.1, hm.2.2.2.2.2.2.2.2.2⟩

end TmuxSsh
